import Mathlib

/-!
Verification of the prediction engine in `src/RalpFI/src/predictions/engine.py`.

Modelling conventions (shallow embedding):
* Python floats are modelled as exact rationals (`Rat`).  The spec states its
  probability properties up to floating-point tolerance, which the rational
  model realises exactly.
* Python ints are modelled as `Int`; Python floor division `//` is `Int.fdiv`
  and the `int(...)` cast of a float truncates toward zero (`pyTrunc`).
* A Python dict field that is read with `d.get(key, default)` is modelled as an
  `Option` field, with the default applied at each call site (the source uses
  different defaults for the same key at different call sites).
* A driver mapping is an association list with distinct keys; iteration order
  is list order, as for Python dicts (insertion order).
* An uncaught Python exception (for example `IndexError` from `frames[i]`) is
  modelled as `Except.error ()`.
-/

/-- Per-driver entry of one telemetry frame.  Fields mirror the keys read by
the engine: `lap`, `tyre`, `position`, `dist`; each is optional because the
source reads them with `dict.get` and a per-call-site default. -/
structure DriverData where
  lap : Option Int
  tyre : Option Int
  position : Option Int
  dist : Option Rat
deriving DecidableEq

/-- One telemetry frame: timestamp `t` and the driver mapping.  A missing
`drivers` key defaults to the empty mapping in the source, so the field is
total here. -/
structure Frame where
  t : Rat
  drivers : List (String × DriverData)
deriving DecidableEq

/-- Lap record produced by `extract_lap_times`
(`{"lap": ..., "time": ..., "tyre": ..., "tyre_age": ..., "valid": ...}`). -/
structure LapRecord where
  lap : Option Int
  time : Option Rat
  tyre : Option Int
  tyre_age : Int
  valid : Bool
deriving DecidableEq

/-- `TyreState` dataclass from `models.py`. -/
structure TyreState where
  compound : Int
  laps_on_tyre : Int
  deg_rate : Rat
  estimated_cliff_lap : Int
  remaining_optimal_laps : Int
deriving DecidableEq

/-- `DriverPrediction` dataclass from `models.py`. -/
structure DriverPrediction where
  driver_code : String
  win_probability : Rat
  podium_probability : Rat
  predicted_finish : Int
  pit_window_start : Option Int
  pit_window_end : Option Int
  should_pit_now : Bool
  danger_level : Rat
  threat_driver : Option String
  confidence : Rat
deriving DecidableEq

/-- One entry of the list returned by `compare_pit_strategies`. -/
structure StrategyOption where
  strategy : String
  predicted_finish : Int
  confidence : Rat
deriving DecidableEq

/-- Python list indexing `l[i]` (with negative-index semantics); an
out-of-range index is an `IndexError`, modelled as `Except.error ()`. -/
def pyGet {α : Type} (l : List α) (i : Int) : Except Unit α :=
  let j : Int := if i < 0 then i + l.length else i
  if j < 0 then .error ()
  else
    match l.get? j.toNat with
    | some a => .ok a
    | none => .error ()

/-- Python `int(...)` applied to a float: truncation toward zero. -/
def pyTrunc (q : Rat) : Int :=
  if q < 0 then Int.ceil q else Int.floor q

/-- Lookup of one driver in a frame (`driver_code in drivers` /
`drivers[driver_code]`). -/
def dataOf (code : String) (f : Frame) : Option DriverData :=
  List.lookup code f.drivers

/-- `driver_data.get("lap", 1)`. -/
def lapOf (d : DriverData) : Int := d.lap.getD 1

/-- `int(driver_data.get("tyre", 0))` as read in `extract_lap_times`. -/
def tyreOf (d : DriverData) : Int := d.tyre.getD 0

/-- Loop state of `extract_lap_times`: the five tracking variables plus the
accumulated `lap_times` list. -/
structure ExtractState where
  lap_start_time : Option Rat
  lap_start_tyre : Option Int
  current_lap : Option Int
  tyre_stint_start_lap : Int
  last_tyre : Option Int
  records : List LapRecord
deriving DecidableEq

def initExtractState : ExtractState := ⟨none, none, none, 1, none, []⟩

/-- One iteration of the frame loop of `extract_lap_times`
(engine.py lines 50-112), translated branch for branch. -/
def extractStep (code : String) (s : ExtractState) (f : Frame) : ExtractState :=
  match dataOf code f with
  | none =>
    -- driver absent: close out an in-progress lap (lines 55-67)
    if s.lap_start_time.isSome then
      -- `(current_lap - tyre_stint_start_lap) if current_lap else 0`:
      -- Python truthiness, `current_lap` equal to 0 or None gives 0
      let age : Int :=
        match s.current_lap with
        | some c => if c ≠ 0 then c - s.tyre_stint_start_lap else 0
        | none => 0
      ⟨none, s.lap_start_tyre, none, s.tyre_stint_start_lap, s.last_tyre,
        s.records ++ [⟨s.current_lap, none, s.last_tyre, age, false⟩]⟩
    else s
  | some d =>
    let driver_lap := lapOf d
    let timestamp := f.t
    let tyre := tyreOf d
    -- tyre change detection (lines 75-77), before any lap handling
    let stint1 : Int :=
      match s.last_tyre with
      | some lt => if tyre ≠ lt then driver_lap else s.tyre_stint_start_lap
      | none => s.tyre_stint_start_lap
    match s.current_lap with
    | none =>
      -- first frame for this driver (lines 80-84)
      ⟨some timestamp, some tyre, some driver_lap, stint1, some tyre, s.records⟩
    | some c =>
      if c < driver_lap then
        -- lap change detected (lines 87-112)
        -- `timestamp - lap_start_time if lap_start_time else None`:
        -- Python truthiness, a 0.0 start time yields None
        let lap_time : Option Rat :=
          match s.lap_start_time with
          | some st => if st ≠ 0 then some (timestamp - st) else none
          | none => none
        let valid : Bool :=
          match lap_time with
          | some lt => !(decide (150 < lt) || decide (lt < 60))
          | none => true
        let rec_tyre : Option Int :=
          match s.lap_start_tyre with
          | some lst => some lst
          | none => some tyre
        ⟨some timestamp, some tyre, some driver_lap, stint1, some tyre,
          s.records ++ [⟨some c, lap_time, rec_tyre, c - stint1, valid⟩]⟩
      else
        ⟨s.lap_start_time, s.lap_start_tyre, s.current_lap, stint1, some tyre, s.records⟩

/-- `extract_lap_times(frames, driver_code, up_to_frame)` (engine.py 17-114). -/
def extract_lap_times (frames : List Frame) (code : String) (up_to_frame : Int) :
    List LapRecord :=
  if frames = [] ∨ up_to_frame ≤ 0 then []
  else ((frames.take up_to_frame.toNat).foldl (extractStep code) initExtractState).records

/-- `TYRE_CLIFF_ESTIMATES.get(compound, 30)` (engine.py 118-124). -/
def cliffEstimate (compound : Int) : Int :=
  if compound = 0 then 18
  else if compound = 1 then 30
  else if compound = 2 then 40
  else if compound = 3 then 25
  else if compound = 4 then 35
  else 30

/-- Compound of the most recent lap record
(`int(lap_times[-1].get("tyre", 0))`); 0 for an empty list (unreached). -/
def lastCompoundOf (l : List LapRecord) : Int :=
  match l.getLast? with
  | some r => r.tyre.getD 0
  | none => 0

/-- Stint membership test of the backward scan (engine.py line 207):
`int(lt.get("tyre", 0)) == current_compound and lt.get("valid", False)`. -/
def stintQual (compound : Int) (r : LapRecord) : Bool :=
  (r.tyre.getD 0 == compound) && r.valid

/-- The backward scan loop of `estimate_tyre_degradation` (engine.py 205-210):
iterate over the reversed record list; a qualifying record is prepended to the
accumulator; a non-qualifying record ends the scan only once the accumulator
is non-empty. -/
def stintGo (q : LapRecord → Bool) : List LapRecord → List LapRecord → List LapRecord
  | acc, [] => acc
  | acc, r :: rest =>
    if q r then stintGo q (r :: acc) rest
    else if acc.isEmpty then stintGo q acc rest
    else acc

/-- The current stint as computed by the source loop. -/
def stintOf (l : List LapRecord) : List LapRecord :=
  stintGo (stintQual (lastCompoundOf l)) [] l.reverse

/-- Python truthiness of `lt.get("time")` (engine.py 226-227): the key must be
present and the value must not be 0.0. -/
def timeTruthy (r : LapRecord) : Bool :=
  match r.time with
  | some t => t != 0
  | none => false

/-- Records of the current stint that enter the regression. -/
def timedOf (l : List LapRecord) : List LapRecord :=
  (stintOf l).filter timeTruthy

/-- The `ages` list of the regression (engine.py line 226). -/
def regressionAges (l : List LapRecord) : List Int :=
  (timedOf l).map (fun r => r.tyre_age)

/-- The `times` list of the regression (engine.py line 227). -/
def regressionTimes (l : List LapRecord) : List Rat :=
  (timedOf l).map (fun r => r.time.getD 0)

/-- `estimate_tyre_degradation(lap_times)` (engine.py 178-276).  The ages are
Python ints, so the float guard `abs(denominator) < 1e-10` is exactly
`denominator == 0`.  The `int(...)` casts of `base_cliff * 0.8` and
`base_cliff * 0.9` agree with rational truncation for every reachable
`base_cliff` value (18, 25, 30, 35, 40). -/
def estimate_tyre_degradation (lap_times : List LapRecord) : TyreState :=
  if lap_times = [] then ⟨0, 0, 0, 18, 18⟩
  else
    let current_compound := lastCompoundOf lap_times
    let stint_laps := stintOf lap_times
    let laps_on_tyre : Int := stint_laps.length
    if laps_on_tyre < 2 then
      let cliff := cliffEstimate current_compound
      ⟨current_compound, laps_on_tyre, 0, cliff, max 0 (cliff - laps_on_tyre)⟩
    else
      let ages := regressionAges lap_times
      let times := regressionTimes lap_times
      if ages.length < 2 then
        let cliff := cliffEstimate current_compound
        ⟨current_compound, laps_on_tyre, 0, cliff, max 0 (cliff - laps_on_tyre)⟩
      else
        let n : Int := ages.length
        let sum_x : Int := ages.sum
        let sum_y : Rat := times.sum
        let sum_xy : Rat := ((ages.zip times).map (fun p => (p.1 : Rat) * p.2)).sum
        let sum_xx : Int := (ages.map (fun a => a * a)).sum
        let denominator : Int := n * sum_xx - sum_x * sum_x
        let deg0 : Rat :=
          if denominator = 0 then 0
          else ((n : Rat) * sum_xy - (sum_x : Rat) * sum_y) / (denominator : Rat)
        let deg_rate := max 0 (min (3/10) deg0)
        let base_cliff := cliffEstimate current_compound
        let estimated_cliff : Int :=
          if 1/10 < deg_rate then Int.floor ((base_cliff : Rat) * (8/10))
          else if 1/20 < deg_rate then Int.floor ((base_cliff : Rat) * (9/10))
          else base_cliff
        ⟨current_compound, laps_on_tyre, deg_rate, estimated_cliff,
          max 0 (estimated_cliff - laps_on_tyre)⟩

/-- `adjust_probability_for_gap(base_prob, gap_to_leader, laps_remaining,
pace_delta)` (engine.py 279-324). -/
def adjust_probability_for_gap (base_prob gap_to_leader : Rat)
    (laps_remaining : Int) (pace_delta : Rat) : Rat :=
  if base_prob ≤ 0 ∨ laps_remaining ≤ 0 then base_prob
  else if gap_to_leader ≤ 0 then base_prob
  else
    let max_closeable := pace_delta * (laps_remaining : Rat)
    if max_closeable ≤ 0 then base_prob * (1/10)
    else
      let catchability := min 1 (max_closeable / gap_to_leader)
      if catchability < 1/2 then base_prob * (catchability * (1/2))
      else base_prob * (1/2 + (catchability - 1/2) * (1/2))

/-- `adjust_probability_for_tyres(prob, my_tyre_age, leader_tyre_age,
my_compound, leader_compound)` (engine.py 327-380). -/
def adjust_probability_for_tyres (prob : Rat)
    (my_tyre_age leader_tyre_age my_compound leader_compound : Int) : Rat :=
  if prob ≤ 0 then prob
  else
    let tyre_age_diff := leader_tyre_age - my_tyre_age
    let a1 : Rat :=
      if 10 < tyre_age_diff then 12/10
      else if 5 < tyre_age_diff then 11/10
      else if tyre_age_diff < -10 then 8/10
      else if tyre_age_diff < -5 then 9/10
      else 1
    let compound_diff := my_compound - leader_compound
    let a2 : Rat :=
      if 0 < compound_diff then 105/100
      else if compound_diff < 0 then 95/100
      else 1
    min 1 (max 0 (prob * (a1 * a2)))

/-- `calculate_pit_window(tyre_state, current_lap, total_laps, buffer_laps)`
(engine.py 416-457). -/
def calculate_pit_window (tyre_state : TyreState) (current_lap total_laps buffer_laps : Int) :
    Option Int × Option Int :=
  -- `optimal_pit_lap = current_lap + remaining_optimal - buffer_laps` is inlined
  if total_laps ≤ 0 then (none, none)
  else if current_lap + tyre_state.remaining_optimal_laps - buffer_laps ≤ 5 then (none, none)
  else if total_laps - 3 ≤ current_lap + tyre_state.remaining_optimal_laps - buffer_laps then
    (none, none)
  else (some (max 1 (current_lap + tyre_state.remaining_optimal_laps - buffer_laps - buffer_laps)),
        some (min (total_laps - 2)
          (current_lap + tyre_state.remaining_optimal_laps - buffer_laps + buffer_laps)))

/-- `compare_pit_strategies(current_lap, laps_remaining, tyre_state, position,
total_drivers)` (engine.py 514-576).  Python `list.sort` is a stable ascending
sort; a stable sort is uniquely determined by its input and key, so the stable
`List.insertionSort` gives the same list. -/
def compare_pit_strategies (_current_lap laps_remaining : Int) (tyre_state : TyreState)
    (position total_drivers : Int) : List StrategyOption :=
  -- `current_lap` is accepted and unused, as in the source
  let pit_loss_positions : Int := 2
  let tyre_gain : Int := min 3 (Int.fdiv laps_remaining 10)
  let pit_now_finish := max 1 (min total_drivers (position + pit_loss_positions - tyre_gain))
  let s1 : StrategyOption :=
    ⟨"Pit now", pit_now_finish,
      if tyre_state.remaining_optimal_laps < 10 then 3/5 else 2/5⟩
  let l1 := [s1]
  let l2 :=
    if 8 < laps_remaining then
      l1 ++ [⟨"Pit in 5 laps",
        max 1 (min total_drivers (position + pit_loss_positions - tyre_gain - 1)), 1/2⟩]
    else l1
  let l3 :=
    if laps_remaining < 15 then
      let deg_penalty := pyTrunc (tyre_state.deg_rate * (laps_remaining : Rat) / (1/10))
      l2 ++ [⟨"No stop",
        max 1 (min total_drivers (position + deg_penalty)),
        if laps_remaining < tyre_state.remaining_optimal_laps then 7/10 else 3/10⟩]
    else l2
  List.insertionSort (fun a b => a.predicted_finish ≤ b.predicted_finish) l3

/-- `PredictionEngine._calculate_base_probability(position, total_drivers)`
(engine.py 866-888). -/
def calculate_base_probability (position total_drivers : Int) : Rat :=
  if position ≤ 0 ∨ total_drivers ≤ 0 then 0
  else if position = 1 then 2/5
  else if position = 2 then 1/4
  else if position = 3 then 3/20
  else if position = 4 then 2/25
  else if position = 5 then 1/20
  else if position ≤ total_drivers then
    max (1/1000) ((1/20) * (1/2) ^ (position - 5).toNat)
  else 0

/-- `PredictionEngine._calculate_podium_probability(position, total_drivers)`
(engine.py 890-914). -/
def calculate_podium_probability (position total_drivers : Int) : Rat :=
  if position ≤ 0 ∨ total_drivers ≤ 0 then 0
  else if position = 1 then 19/20
  else if position = 2 then 17/20
  else if position = 3 then 7/10
  else if position = 4 then 2/5
  else if position = 5 then 1/4
  else if position = 6 then 3/20
  else if position = 7 then 2/25
  else if position = 8 then 1/25
  else if position ≤ total_drivers then
    max (1/1000) ((1/25) * (1/2) ^ (position - 8).toNat)
  else 0

/-- `PredictionEngine._calculate_driver_prediction(frames, current_frame_idx,
driver_code, laps_remaining)` (engine.py 782-864).  The unguarded
`frames[current_frame_idx]` on line 794 is `pyGet`, which raises for an
out-of-range index.  `.ok none` models the Python `None` return (driver not in
frame). -/
def calculate_driver_prediction (frames : List Frame) (current_frame_idx : Int)
    (code : String) (laps_remaining : Int) : Except Unit (Option DriverPrediction) :=
  match pyGet frames current_frame_idx with
  | .error e => .error e
  | .ok current_frame =>
    let drivers := current_frame.drivers
    match List.lookup code drivers with
    | none => .ok none
    | some driver_data =>
      let position := driver_data.position.getD 20
      let total_drivers : Int := drivers.length
      let win0 := calculate_base_probability position total_drivers
      let podium_prob := calculate_podium_probability position total_drivers
      -- first driver whose `data.get("position")` equals 1 (lines 809-815)
      let leader := drivers.find? (fun kv => kv.2.position == some 1)
      let win1 :=
        match leader with
        | some (_, leader_data) =>
          if 1 < position then
            let gap_meters := leader_data.dist.getD 0 - driver_data.dist.getD 0
            let gap_seconds := if 0 < gap_meters then gap_meters / (1389/25) else 0
            adjust_probability_for_gap win0 gap_seconds laps_remaining (1/2)
          else win0
        | none => win0
      let win2 :=
        match leader with
        | some (leader_code, leader_data) =>
          if leader_code ≠ code then
            adjust_probability_for_tyres win1
              ((driver_data.lap.getD 1) % 20) ((leader_data.lap.getD 1) % 20)
              (driver_data.tyre.getD 1) (leader_data.tyre.getD 1)
          else win1
        | none => win1
      let win3 := max (1/1000) (min (999/1000) win2)
      .ok (some ⟨code, win3, podium_prob, position, none, none, false, 0, none, 3/5⟩)

/-- `frames[min(current_frame_idx, len(frames) - 1)]` (engine.py line 746);
under the guards of `calculate_all` the index is always in range, so the
default is never used. -/
def currentFrameOf (frames : List Frame) (current_frame_idx : Int) : Frame :=
  (frames.get? (min current_frame_idx ((frames.length : Int) - 1)).toNat).getD ⟨0, []⟩

/-- The first pass of `calculate_all` (engine.py 752-759): one prediction per
driver of the current frame, in mapping order, skipping `None` results. -/
def firstPass (frames : List Frame) (current_frame_idx laps_remaining : Int) :
    List (String × DriverData) → Except Unit (List (String × DriverPrediction))
  | [] => .ok []
  | (code, _) :: rest =>
    match calculate_driver_prediction frames current_frame_idx code laps_remaining with
    | .error e => .error e
    | .ok none => firstPass frames current_frame_idx laps_remaining rest
    | .ok (some p) =>
      match firstPass frames current_frame_idx laps_remaining rest with
      | .error e => .error e
      | .ok tail => .ok ((code, p) :: tail)

/-- The raw (pre-normalization) prediction mapping of `calculate_all`. -/
def rawPredictionsOf (frames : List Frame) (current_frame_idx laps_remaining : Int) :
    Except Unit (List (String × DriverPrediction)) :=
  firstPass frames current_frame_idx laps_remaining
    (currentFrameOf frames current_frame_idx).drivers

/-- The normalization pass of `calculate_all` (engine.py 761-779): when the
win probabilities have positive sum, each is divided by that sum and every
other field is copied unchanged. -/
def normalizePredictions (raw : List (String × DriverPrediction)) :
    List (String × DriverPrediction) :=
  let total := (raw.map (fun kv => kv.2.win_probability)).sum
  if 0 < total then
    raw.map (fun kv =>
      (kv.1, ⟨kv.2.driver_code, kv.2.win_probability / total, kv.2.podium_probability,
        kv.2.predicted_finish, kv.2.pit_window_start, kv.2.pit_window_end,
        kv.2.should_pit_now, kv.2.danger_level, kv.2.threat_driver, kv.2.confidence⟩))
  else raw

/-- `PredictionEngine.calculate_all(frames, current_frame_idx, laps_remaining)`
(engine.py 723-780). -/
def calculate_all (frames : List Frame) (current_frame_idx laps_remaining : Int) :
    Except Unit (List (String × DriverPrediction)) :=
  if frames = [] ∨ current_frame_idx < 0 then .ok []
  else if (currentFrameOf frames current_frame_idx).drivers = [] then .ok []
  else
    match rawPredictionsOf frames current_frame_idx laps_remaining with
    | .error e => .error e
    | .ok raw => .ok (normalizePredictions raw)

/-! ## Claim-side definitions and concrete inputs -/

/-- Tyre-age factor of `adjust_probability_for_tyres`, with the thresholds the
source actually uses: strict comparisons on the age difference. -/
def tyreAgeFactor (d : Int) : Rat :=
  if 10 < d then 12/10
  else if 5 < d then 11/10
  else if d < -10 then 8/10
  else if d < -5 then 9/10
  else 1

/-- Compound-endurance factor of `adjust_probability_for_tyres`. -/
def compoundFactor (cd : Int) : Rat :=
  if 0 < cd then 105/100 else if cd < 0 then 95/100 else 1

/-- Catchability scaling factor of `adjust_probability_for_gap`. -/
def gapAdjustmentFactor (catchability : Rat) : Rat :=
  if catchability < 1/2 then catchability * (1/2)
  else 1/2 + (catchability - 1/2) * (1/2)

/-- Input frames for the out-of-range failing input of `calculate_all`:
one frame, one driver. -/
def c2Frames : List Frame :=
  [⟨0, [("VER", ⟨some 1, some 0, some 1, some 0⟩)]⟩]

/-- Two frames in which the single tyre-compound change is first reported on
the same frame as a lap increment: the completed lap is attributed to the new
stint start, so its `tyre_age` is negative. -/
def c3CexFrames : List Frame :=
  [⟨0, [("VER", ⟨some 1, some 0, some 1, some 0⟩)]⟩,
   ⟨100, [("VER", ⟨some 2, some 1, some 1, some 0⟩)]⟩]

/-- Synthetic race with exactly one pit stop: the compound changes from 0 to 1
during lap 3 (reported on a frame whose lap number still equals 3). -/
def pitStopFrames : List Frame :=
  [⟨0, [("VER", ⟨some 1, some 0, some 1, some 0⟩)]⟩,
   ⟨90, [("VER", ⟨some 2, some 0, some 1, some 0⟩)]⟩,
   ⟨180, [("VER", ⟨some 3, some 0, some 1, some 0⟩)]⟩,
   ⟨200, [("VER", ⟨some 3, some 1, some 1, some 0⟩)]⟩,
   ⟨270, [("VER", ⟨some 4, some 1, some 1, some 0⟩)]⟩,
   ⟨360, [("VER", ⟨some 5, some 1, some 1, some 0⟩)]⟩]

/-- Expected extraction for `pitStopFrames`: the record of pit lap 3 has
`tyre_age = 0` (the lap-1 record has a `none` time because its start timestamp
0.0 is falsy in Python). -/
def pitStopRecords : List LapRecord :=
  [⟨some 1, none, some 0, 0, true⟩,
   ⟨some 2, some 90, some 0, 1, true⟩,
   ⟨some 3, some 90, some 0, 0, true⟩,
   ⟨some 4, some 90, some 1, 1, true⟩]

/-- Record list whose last record is invalid but of the same compound as the
stint before it: the source scan skips it and still collects the two valid
records. -/
def c7Records : List LapRecord :=
  [⟨some 1, some 80, some 0, 0, true⟩,
   ⟨some 2, some 81, some 0, 1, true⟩,
   ⟨some 3, some 200, some 0, 2, false⟩]

/-- The stint as described by the claim: the maximal run of trailing valid
records of the most recent compound, scanning backward from the very end and
stopping at the first non-qualifying record. -/
def stintSpecTrailing (l : List LapRecord) : List LapRecord :=
  ((l.reverse).takeWhile (stintQual (lastCompoundOf l))).reverse

/-- The corrected description of the source scan: first skip the trailing
records that do not qualify, then collect the maximal qualifying run. -/
def stintSkipThenCollect (l : List LapRecord) : List LapRecord :=
  (((l.reverse).dropWhile (fun r => !(stintQual (lastCompoundOf l) r))).takeWhile
    (stintQual (lastCompoundOf l))).reverse

/-- Stint with two timed records of equal tyre age: a regression input with
zero variance in tyre age. -/
def c6Records : List LapRecord :=
  [⟨some 1, some 80, some 0, 3, true⟩,
   ⟨some 2, some 80, some 0, 3, true⟩]

/-- Tyre state used in the pit-strategy examples. -/
def c8TyreState : TyreState := ⟨0, 5, 0, 18, 13⟩

/-- One frame with two drivers, used to instantiate the normalization
theorem. -/
def c1WitnessFrames : List Frame :=
  [⟨0, [("VER", ⟨some 10, some 0, some 1, some 5000⟩),
        ("HAM", ⟨some 10, some 0, some 2, some 4800⟩)]⟩]

/-- Raw (pre-normalization) predictions of `c1WitnessFrames`. -/
def c1WitnessRaw : List (String × DriverPrediction) :=
  [("VER", ⟨"VER", 2/5, 19/20, 1, none, none, false, 0, none, 3/5⟩),
   ("HAM", ⟨"HAM", 3/16, 17/20, 2, none, none, false, 0, none, 3/5⟩)]

/-- Normalized predictions of `c1WitnessFrames`. -/
def c1WitnessPreds : List (String × DriverPrediction) :=
  [("VER", ⟨"VER", 32/47, 19/20, 1, none, none, false, 0, none, 3/5⟩),
   ("HAM", ⟨"HAM", 15/47, 17/20, 2, none, none, false, 0, none, 3/5⟩)]

/-- Well-formedness of the frame sequence seen by one driver, tracked against
the lap and tyre of the driver's previous appearance: every reported lap is at
least 1, laps never decrease, and a compound change is never first reported on
a frame whose lap exceeds the previous appearance's lap. -/
def goodSeqB (code : String) : Option (Int × Int) → List Frame → Bool
  | _, [] => true
  | prev, f :: fs =>
    match dataOf code f with
    | none => goodSeqB code prev fs
    | some d =>
      decide (1 ≤ lapOf d) &&
      (match prev with
       | none => true
       | some (pl, pt) =>
         decide (pl ≤ lapOf d) &&
         (if tyreOf d ≠ pt then decide (lapOf d ≤ pl) else true)) &&
      goodSeqB code (some (lapOf d, tyreOf d)) fs

/-- Invariant of the `extract_lap_times` loop state relative to the driver's
previous appearance `(lap, tyre)`: before any appearance the state is initial;
afterwards `last_tyre` is the previous tyre, the stint start is at most the
previous lap, and a tracked current lap equals the previous lap. -/
def ExtractInv (s : ExtractState) : Option (Int × Int) → Prop
  | none => s.current_lap = none ∧ s.last_tyre = none ∧ s.tyre_stint_start_lap = 1
  | some (pl, pt) =>
    s.last_tyre = some pt ∧ s.tyre_stint_start_lap ≤ pl ∧
      ∀ c, s.current_lap = some c → c = pl

instance : IsTotal StrategyOption (fun a b => a.predicted_finish ≤ b.predicted_finish) :=
  ⟨fun a b => Int.le_total a.predicted_finish b.predicted_finish⟩

instance : IsTrans StrategyOption (fun a b => a.predicted_finish ≤ b.predicted_finish) :=
  ⟨fun _ _ _ h1 h2 => le_trans h1 h2⟩

/-! ## Theorems -/

/-- C5: `calculate_pit_window` returns `(none, none)` exactly when the optimal
pit lap `current_lap + remaining_optimal_laps - buffer_laps` is at most 5 or at
least `total_laps - 3` (within the last three laps of the race); otherwise it
returns the window `[optimal - buffer, optimal + buffer]` clamped into
`[1, total_laps - 2]`. -/
theorem c5_pit_window_characterization (ts : TyreState)
    (current_lap total_laps buffer_laps : Int) :
    calculate_pit_window ts current_lap total_laps buffer_laps =
      (if current_lap + ts.remaining_optimal_laps - buffer_laps ≤ 5
          ∨ total_laps - 3 ≤ current_lap + ts.remaining_optimal_laps - buffer_laps then
        (none, none)
      else
        (some (max 1 (current_lap + ts.remaining_optimal_laps - buffer_laps - buffer_laps)),
         some (min (total_laps - 2)
           (current_lap + ts.remaining_optimal_laps - buffer_laps + buffer_laps)))) := by
  unfold calculate_pit_window
  split_ifs <;> first | rfl | (exfalso; omega)

/-- C10: the base win probability is 0 for a non-positive position or driver
count; positions 1 through 5 read the fixed table even when the position
exceeds the driver count; positions beyond 5 use the floored exponential decay
when the position is at most the driver count and 0 otherwise. -/
theorem c10_base_probability_cases :
    (∀ position total_drivers : Int, position ≤ 0 ∨ total_drivers ≤ 0 →
      calculate_base_probability position total_drivers = 0) ∧
    (∀ total_drivers : Int, 0 < total_drivers →
      calculate_base_probability 1 total_drivers = 2/5 ∧
      calculate_base_probability 2 total_drivers = 1/4 ∧
      calculate_base_probability 3 total_drivers = 3/20 ∧
      calculate_base_probability 4 total_drivers = 2/25 ∧
      calculate_base_probability 5 total_drivers = 1/20) ∧
    (∀ position total_drivers : Int, 5 < position → position ≤ total_drivers →
      calculate_base_probability position total_drivers =
        max (1/1000) ((1/20) * (1/2) ^ (position - 5).toNat)) ∧
    (∀ position total_drivers : Int, 5 < position → total_drivers < position →
      calculate_base_probability position total_drivers = 0) := by
  refine ⟨?_, ?_, ?_, ?_⟩
  · intro p n h
    unfold calculate_base_probability
    rw [if_pos h]
  · intro n hn
    refine ⟨?_, ?_, ?_, ?_, ?_⟩ <;>
      (unfold calculate_base_probability; split_ifs <;> first | rfl | (exfalso; omega))
  · intro p n h5 hn
    unfold calculate_base_probability
    split_ifs <;> first | rfl | (exfalso; omega)
  · intro p n h5 hn
    unfold calculate_base_probability
    split_ifs <;> first | rfl | (exfalso; omega)

/-- Witness for C10: position 7 of 10 uses the decay formula, and position 3
reads the table even with a single driver in the frame. -/
theorem c10_base_probability_witness :
    calculate_base_probability 7 10 = max (1/1000) ((1/20) * (1/2) ^ ((7:Int) - 5).toNat) ∧
    calculate_base_probability 3 1 = 3/20 :=
  ⟨c10_base_probability_cases.2.2.1 7 10 (by decide) (by decide),
   (c10_base_probability_cases.2.1 1 (by decide)).2.2.1⟩

/-- C4 counterexample: at a tyre-age difference of exactly 10 (leader ten laps
older, equal compounds) the source multiplies by 1.1, not by the 1.2 the claim
assigns to a difference of at least 10. -/
theorem c4_counterexample :
    adjust_probability_for_tyres (1/2) 0 10 1 1 = 11/20 ∧
    (11/20 : Rat) ≠ min 1 (max 0 ((1/2) * (12/10))) := by
  constructor
  · with_unfolding_all rfl
  · norm_num [min_def, max_def]

/-- C4 as amended: for a positive probability the result is the probability
times the age factor (strict thresholds: 1.2 only above 10, 1.1 only above 5,
0.8 only below -10, 0.9 only below -5) times the compound factor, clamped to
[0, 1]. -/
theorem c4_tyre_adjust_formula (prob : Rat) (my_age leader_age my_c leader_c : Int)
    (hp : 0 < prob) :
    adjust_probability_for_tyres prob my_age leader_age my_c leader_c =
      min 1 (max 0 (prob *
        (tyreAgeFactor (leader_age - my_age) * compoundFactor (my_c - leader_c)))) := by
  unfold adjust_probability_for_tyres tyreAgeFactor compoundFactor
  rw [if_neg (not_le.mpr hp)]

/-- Witness for C4: leader eleven laps older and a harder compound. -/
theorem c4_tyre_adjust_witness :
    adjust_probability_for_tyres (1/2) 0 11 2 1 =
      min 1 (max 0 ((1/2) * (tyreAgeFactor (11 - 0) * compoundFactor (2 - 1)))) :=
  c4_tyre_adjust_formula (1/2) 0 11 2 1 (by norm_num)

lemma adjust_gap_formula (b g : Rat) (laps : Int) (pd : Rat)
    (hb : 0 < b) (hg : 0 < g) (hl : 0 < laps) (hp : 0 < pd) :
    adjust_probability_for_gap b g laps pd =
      b * gapAdjustmentFactor (min 1 (pd * (laps : Rat) / g)) := by
  have hlr : (0 : Rat) < (laps : Rat) := by exact_mod_cast hl
  simp only [adjust_probability_for_gap, gapAdjustmentFactor]
  rw [if_neg (by push_neg; exact ⟨hb, hl⟩), if_neg (not_le.mpr hg),
    if_neg (not_le.mpr (mul_pos hp hlr))]
  split_ifs <;> ring

lemma adjust_gap_leading (b g : Rat) (laps : Int) (pd : Rat) (hg : g ≤ 0) :
    adjust_probability_for_gap b g laps pd = b := by
  unfold adjust_probability_for_gap
  split_ifs <;> rfl

lemma adjust_gap_scenario (b : Rat) (hb : 0 < b) :
    adjust_probability_for_gap b 10 2 (1/2) = b * (1/20) := by
  rw [adjust_gap_formula b 10 2 (1/2) hb (by norm_num) (by norm_num) (by norm_num)]
  have hc : min (1 : Rat) ((1/2) * ((2 : Int) : Rat) / 10) = 1/10 := by
    norm_num [min_def]
  rw [hc]
  unfold gapAdjustmentFactor
  rw [if_pos (by norm_num : (1 : Rat)/10 < 1/2)]
  ring

/-- C9: for positive base, gap, laps remaining and pace delta the adjusted
probability is the base times `catchability * 0.5` when catchability is below
0.5 and times `0.5 + (catchability - 0.5) * 0.5` otherwise, where
`catchability = min 1 (pace_delta * laps_remaining / gap)`; a non-positive gap
leaves the base unadjusted; and gap 10 s, 2 laps remaining and pace delta 0.5
give `base * 0.05`. -/
theorem c9_gap_adjustment :
    (∀ (b g : Rat) (laps : Int) (pd : Rat), 0 < b → 0 < g → 0 < laps → 0 < pd →
      adjust_probability_for_gap b g laps pd =
        b * gapAdjustmentFactor (min 1 (pd * (laps : Rat) / g))) ∧
    (∀ (b g : Rat) (laps : Int) (pd : Rat), g ≤ 0 →
      adjust_probability_for_gap b g laps pd = b) ∧
    (∀ b : Rat, 0 < b → adjust_probability_for_gap b 10 2 (1/2) = b * (1/20)) :=
  ⟨fun b g laps pd hb hg hl hp => adjust_gap_formula b g laps pd hb hg hl hp,
   fun b g laps pd hg => adjust_gap_leading b g laps pd hg,
   fun b hb => adjust_gap_scenario b hb⟩

/-- Witness for C9: the spec scenario at base probability 0.4. -/
theorem c9_gap_adjustment_witness :
    adjust_probability_for_gap (2/5) 10 2 (1/2) = (2/5) * (1/20) :=
  c9_gap_adjustment.2.2 (2/5) (by norm_num)

/-- C8 counterexample: with exactly 8 laps remaining the source omits the
"Pit in 5 laps" scenario (the guard is strictly greater than 8), although the
claim requires it whenever at least 8 laps remain. -/
theorem c8_counterexample :
    (compare_pit_strategies 20 8 c8TyreState 5 20).map (fun s => s.strategy) =
      ["No stop", "Pit now"] ∧
    "Pit in 5 laps" ∉
      (compare_pit_strategies 20 8 c8TyreState 5 20).map (fun s => s.strategy) := by
  have he : (compare_pit_strategies 20 8 c8TyreState 5 20).map (fun s => s.strategy) =
      ["No stop", "Pit now"] := by with_unfolding_all rfl
  refine ⟨he, ?_⟩
  rw [he]
  decide

/-- C8 as amended: `compare_pit_strategies` always contains the "Pit now"
scenario, contains "Pit in 5 laps" exactly when more than 8 laps remain,
contains "No stop" exactly when fewer than 15 laps remain, predicts the
"Pit now" finish as the position shifted by the fixed pit loss of 2 offset by
a pace gain capped at 3, and returns the scenarios in ascending order of
predicted finishing position. -/
theorem c8_pit_strategies (current_lap laps_remaining : Int) (ts : TyreState)
    (position total_drivers : Int) :
    ("Pit now" ∈ (compare_pit_strategies current_lap laps_remaining ts
        position total_drivers).map (fun s => s.strategy)) ∧
    (("Pit in 5 laps" ∈ (compare_pit_strategies current_lap laps_remaining ts
        position total_drivers).map (fun s => s.strategy)) ↔ 8 < laps_remaining) ∧
    (("No stop" ∈ (compare_pit_strategies current_lap laps_remaining ts
        position total_drivers).map (fun s => s.strategy)) ↔ laps_remaining < 15) ∧
    (∃ s ∈ compare_pit_strategies current_lap laps_remaining ts position total_drivers,
      s.strategy = "Pit now" ∧
      s.predicted_finish =
        max 1 (min total_drivers (position + 2 - min 3 (Int.fdiv laps_remaining 10)))) ∧
    List.Sorted (fun a b => a.predicted_finish ≤ b.predicted_finish)
      (compare_pit_strategies current_lap laps_remaining ts position total_drivers) := by
  refine ⟨?_, ?_, ?_, ?_, ?_⟩
  · simp only [compare_pit_strategies, List.mem_map, List.mem_insertionSort]
    by_cases h8 : 8 < laps_remaining <;> by_cases h15 : laps_remaining < 15 <;>
      simp [h8, h15]
  · simp only [compare_pit_strategies, List.mem_map, List.mem_insertionSort]
    by_cases h8 : 8 < laps_remaining <;> by_cases h15 : laps_remaining < 15 <;>
      simp [h8, h15]
  · simp only [compare_pit_strategies, List.mem_map, List.mem_insertionSort]
    by_cases h8 : 8 < laps_remaining <;> by_cases h15 : laps_remaining < 15 <;>
      simp [h8, h15]
  · have hmem : (⟨"Pit now",
        max 1 (min total_drivers (position + 2 - min 3 (Int.fdiv laps_remaining 10))),
        if ts.remaining_optimal_laps < 10 then 3/5 else 2/5⟩ : StrategyOption) ∈
        compare_pit_strategies current_lap laps_remaining ts position total_drivers := by
      simp only [compare_pit_strategies, List.mem_insertionSort]
      by_cases h8 : 8 < laps_remaining <;> by_cases h15 : laps_remaining < 15 <;>
        simp [h8, h15]
    exact ⟨_, hmem, rfl, rfl⟩
  · exact List.sorted_insertionSort _ _

/-- C2: the claim says `calculate_all` never raises; but for a frame index
greater than or equal to the frame count (with a non-empty last frame) the
helper `_calculate_driver_prediction` evaluates `frames[current_frame_idx]`
unclamped and raises `IndexError`. -/
theorem c2_out_of_range_raises : calculate_all c2Frames 1 10 = Except.error () := by
  with_unfolding_all rfl

/-- C3 counterexample: a tyre-compound change first reported on the same frame
as a lap increment attributes the completed lap to the new stint start, giving
the record `tyre_age = -1 < 0`. -/
theorem c3_counterexample :
    extract_lap_times c3CexFrames "VER" 2 =
      [⟨some 1, none, some 0, -1, true⟩] ∧ (-1 : Int) < 0 := by
  refine ⟨?_, by decide⟩
  with_unfolding_all rfl

/-- C7 counterexample: on a record list whose last record is invalid but of
the current compound, the stint described by the claim (stop at the first
non-qualifying trailing record) is empty, yet the source skips that record and
reports two laps on tyre with a clamped slope of 0.3. -/
theorem c7_counterexample :
    stintSpecTrailing c7Records = [] ∧
    (estimate_tyre_degradation c7Records).laps_on_tyre = 2 ∧
    (estimate_tyre_degradation c7Records).deg_rate = 3/10 := by
  refine ⟨by with_unfolding_all rfl, by with_unfolding_all rfl, by with_unfolding_all rfl⟩

lemma stintGo_acc (q : LapRecord → Bool) :
    ∀ (rest acc : List LapRecord), acc ≠ [] →
      stintGo q acc rest = (rest.takeWhile q).reverse ++ acc := by
  intro rest
  induction rest with
  | nil => intro acc _; simp [stintGo]
  | cons r rest ih =>
    intro acc hacc
    by_cases hq : q r
    · rw [stintGo, if_pos hq, ih (r :: acc) (by simp), List.takeWhile_cons, if_pos hq]
      simp
    · rw [stintGo, if_neg hq, if_neg (by simpa [List.isEmpty_iff] using hacc),
        List.takeWhile_cons, if_neg hq]
      simp

lemma stintGo_skip (q : LapRecord → Bool) :
    ∀ l : List LapRecord,
      stintGo q [] l = ((l.dropWhile (fun r => !(q r))).takeWhile q).reverse := by
  intro l
  induction l with
  | nil => simp [stintGo]
  | cons r rest ih =>
    by_cases hq : q r
    · rw [stintGo, if_pos hq, stintGo_acc q rest [r] (by simp),
        List.dropWhile_cons, if_neg (by simp [hq]), List.takeWhile_cons, if_pos hq]
      simp
    · rw [stintGo, if_neg hq, if_pos (by simp), ih,
        List.dropWhile_cons, if_pos (by simp [hq])]

/-- C7 as amended: the source identifies the current stint by scanning
backward, first skipping trailing records that are invalid or of a different
compound, then collecting the maximal run of valid records of the most recent
compound, and stopping at the first non-qualifying record after collection has
begun; `laps_on_tyre` counts exactly that run. -/
theorem c7_stint_scan (lap_times : List LapRecord) :
    stintOf lap_times = stintSkipThenCollect lap_times ∧
    (estimate_tyre_degradation lap_times).laps_on_tyre =
      ((stintSkipThenCollect lap_times).length : Int) := by
  have h1 : stintOf lap_times = stintSkipThenCollect lap_times := by
    unfold stintOf stintSkipThenCollect
    exact stintGo_skip _ _
  refine ⟨h1, ?_⟩
  by_cases hl : lap_times = []
  · subst hl
    with_unfolding_all rfl
  · simp only [estimate_tyre_degradation, if_neg hl]
    split_ifs <;> simp [h1]

lemma sum_allsame (L : List Int) (c : Int) (h : ∀ x ∈ L, x = c) :
    L.sum = c * L.length := by
  induction L with
  | nil => simp
  | cons x xs ih =>
    have hx : x = c := h x (List.mem_cons_self x xs)
    have ihh := ih (fun y hy => h y (List.mem_cons_of_mem x hy))
    simp only [List.sum_cons, List.length_cons, ihh, hx]
    push_cast
    ring

lemma sumsq_allsame (L : List Int) (c : Int) (h : ∀ x ∈ L, x = c) :
    (L.map (fun a => a * a)).sum = c * c * L.length := by
  induction L with
  | nil => simp
  | cons x xs ih =>
    have hx : x = c := h x (List.mem_cons_self x xs)
    have ihh := ih (fun y hy => h y (List.mem_cons_of_mem x hy))
    simp only [List.map_cons, List.sum_cons, List.length_cons, ihh, hx]
    push_cast
    ring

lemma allsame_denominator_zero (L : List Int)
    (h : ∀ a ∈ L, ∀ b ∈ L, a = b) :
    (L.length : Int) * (L.map (fun a => a * a)).sum - L.sum * L.sum = 0 := by
  cases L with
  | nil => simp
  | cons a T =>
    have hall : ∀ x ∈ a :: T, x = a := fun x hx => h x hx a (List.mem_cons_self a T)
    rw [sum_allsame (a :: T) a hall, sumsq_allsame (a :: T) a hall]
    ring

/-- C6: `estimate_tyre_degradation` always returns a degradation rate in
[0, 0.3] and a non-negative `remaining_optimal_laps`; and when the regression
ages all coincide (zero variance), the degradation rate is 0 rather than a
division failure. -/
theorem c6_degradation_bounds (lap_times : List LapRecord) :
    (0 ≤ (estimate_tyre_degradation lap_times).deg_rate ∧
     (estimate_tyre_degradation lap_times).deg_rate ≤ 3/10 ∧
     0 ≤ (estimate_tyre_degradation lap_times).remaining_optimal_laps) ∧
    ((∀ a ∈ regressionAges lap_times, ∀ b ∈ regressionAges lap_times, a = b) →
      (estimate_tyre_degradation lap_times).deg_rate = 0) := by
  by_cases hl : lap_times = []
  · subst hl
    refine ⟨⟨by norm_num [estimate_tyre_degradation], by norm_num [estimate_tyre_degradation],
      by norm_num [estimate_tyre_degradation]⟩, fun _ => by norm_num [estimate_tyre_degradation]⟩
  · simp only [estimate_tyre_degradation, if_neg hl]
    by_cases h2 : ((stintOf lap_times).length : Int) < 2
    · rw [if_pos h2]
      exact ⟨⟨le_refl 0, by norm_num, le_max_left 0 _⟩, fun _ => rfl⟩
    · rw [if_neg h2]
      by_cases h3 : (regressionAges lap_times).length < 2
      · rw [if_pos h3]
        exact ⟨⟨le_refl 0, by norm_num, le_max_left 0 _⟩, fun _ => rfl⟩
      · rw [if_neg h3]
        constructor
        · exact ⟨le_max_left 0 _, max_le (by norm_num) (min_le_left _ _), le_max_left 0 _⟩
        · intro hsame
          have hden : ((regressionAges lap_times).length : Int) *
              ((regressionAges lap_times).map (fun a => a * a)).sum -
              (regressionAges lap_times).sum * (regressionAges lap_times).sum = 0 :=
            allsame_denominator_zero _ hsame
          rw [if_pos hden]
          norm_num [min_def, max_def]

/-- Witness for C6: a stint with two timed records of equal tyre age gives a
zero degradation rate and a non-negative remaining life. -/
theorem c6_degradation_witness :
    (estimate_tyre_degradation c6Records).deg_rate = 0 ∧
    0 ≤ (estimate_tyre_degradation c6Records).remaining_optimal_laps := by
  refine ⟨(c6_degradation_bounds c6Records).2 ?_, (c6_degradation_bounds c6Records).1.2.2⟩
  have h : regressionAges c6Records = [3, 3] := by with_unfolding_all rfl
  rw [h]
  intro a ha b hb
  simp only [List.mem_cons, List.not_mem_nil, or_false] at ha hb
  rcases ha with rfl | rfl <;> rcases hb with rfl | rfl <;> rfl

lemma goodSeqB_cons_present {code : String} {f : Frame} {fs : List Frame}
    {prev : Option (Int × Int)} {d : DriverData}
    (hd : dataOf code f = some d) (h : goodSeqB code prev (f :: fs) = true) :
    1 ≤ lapOf d ∧
    (∀ pl pt, prev = some (pl, pt) → pl ≤ lapOf d ∧ (tyreOf d ≠ pt → lapOf d ≤ pl)) ∧
    goodSeqB code (some (lapOf d, tyreOf d)) fs = true := by
  cases prev with
  | none =>
    simp only [goodSeqB, hd, Bool.true_and, Bool.and_true, Bool.and_eq_true,
      decide_eq_true_eq] at h
    refine ⟨h.1, ?_, h.2⟩
    intro pl pt hc
    exact absurd hc (by simp)
  | some pp =>
    obtain ⟨pl, pt⟩ := pp
    simp only [goodSeqB, hd, Bool.and_eq_true, decide_eq_true_eq] at h
    obtain ⟨⟨h1, h2, h3⟩, h4⟩ := h
    refine ⟨h1, ?_, h4⟩
    rintro pl2 pt2 hc
    injection hc with hc2
    obtain ⟨rfl, rfl⟩ := Prod.mk.injEq pl pt pl2 pt2 ▸ hc2
    refine ⟨h2, fun hne => ?_⟩
    rw [if_pos hne] at h3
    exact of_decide_eq_true h3

lemma extract_fold_ages_nonneg (code : String) :
    ∀ (fs : List Frame) (s : ExtractState) (prev : Option (Int × Int)),
      ExtractInv s prev → goodSeqB code prev fs = true →
      (∀ r ∈ s.records, 0 ≤ r.tyre_age) →
      ∀ r ∈ (fs.foldl (extractStep code) s).records, 0 ≤ r.tyre_age := by
  intro fs
  induction fs with
  | nil =>
    intro s prev _ _ hrec r hr
    simpa using hrec r hr
  | cons f fs ih =>
    intro s prev hinv hgood hrec
    rw [List.foldl_cons]
    cases hd : dataOf code f with
    | none =>
      have hgood2 : goodSeqB code prev fs = true := by
        simpa only [goodSeqB, hd] using hgood
      by_cases hst : s.lap_start_time.isSome
      · refine ih _ prev ?_ hgood2 ?_
        · simp only [extractStep, hd, if_pos hst]
          cases prev with
          | none =>
            obtain ⟨_, h2, h3⟩ := hinv
            exact ⟨rfl, h2, h3⟩
          | some pp =>
            obtain ⟨pl, pt⟩ := pp
            obtain ⟨hl1, hl2, _⟩ := hinv
            exact ⟨hl1, hl2, fun c hc => Option.noConfusion hc⟩
        · intro r hr
          simp only [extractStep, hd, if_pos hst] at hr
          rcases List.mem_append.mp hr with hmem | hmem
          · exact hrec r hmem
          · simp only [List.mem_singleton] at hmem
            subst hmem
            show (0 : Int) ≤ (match s.current_lap with
              | some c => if c ≠ 0 then c - s.tyre_stint_start_lap else 0
              | none => 0)
            cases hcur : s.current_lap with
            | none => exact le_refl 0
            | some c =>
              show (0 : Int) ≤ if c ≠ 0 then c - s.tyre_stint_start_lap else 0
              by_cases hc0 : c = 0
              · rw [if_neg (fun h => h hc0)]
              · rw [if_pos hc0]
                cases prev with
                | none => exact absurd hcur (hinv.1 ▸ fun h => Option.noConfusion h)
                | some pp =>
                  obtain ⟨pl, pt⟩ := pp
                  obtain ⟨_, hsp, hcurinv⟩ := hinv
                  have := hcurinv c hcur
                  omega
      · have hstep : extractStep code s f = s := by
          simp only [extractStep, hd, if_neg hst]
        rw [hstep]
        exact ih s prev hinv hgood2 hrec
    | some d =>
      obtain ⟨h1, hprev, hrest⟩ := goodSeqB_cons_present hd hgood
      cases prev with
      | none =>
        obtain ⟨hc0, hl0, hs0⟩ := hinv
        refine ih _ (some (lapOf d, tyreOf d)) ?_ hrest ?_
        · simp only [extractStep, hd, hl0, hc0]
          exact ⟨rfl, hs0 ▸ h1, fun c hc => (Option.some.inj hc).symm⟩
        · intro r hr
          simp only [extractStep, hd, hl0, hc0] at hr
          exact hrec r hr
      | some pp =>
        obtain ⟨pl, pt⟩ := pp
        obtain ⟨hlt, hsp, hcur⟩ := hinv
        obtain ⟨hple, hchg⟩ := hprev pl pt rfl
        cases hcurcase : s.current_lap with
        | none =>
          refine ih _ (some (lapOf d, tyreOf d)) ?_ hrest ?_
          · simp only [extractStep, hd, hlt, hcurcase]
            refine ⟨rfl, ?_, fun c hc => (Option.some.inj hc).symm⟩
            by_cases hne : tyreOf d ≠ pt
            · rw [if_pos hne]
            · rw [if_neg hne]
              exact le_trans hsp hple
          · intro r hr
            simp only [extractStep, hd, hlt, hcurcase] at hr
            exact hrec r hr
        | some c =>
          have hcpl : c = pl := hcur c hcurcase
          by_cases hlap : c < lapOf d
          · have hsame : tyreOf d = pt := by
              by_contra hne
              have := hchg hne
              omega
            have hnotne : ¬(tyreOf d ≠ pt) := fun h => h hsame
            refine ih _ (some (lapOf d, tyreOf d)) ?_ hrest ?_
            · simp only [extractStep, hd, hlt, hcurcase, if_pos hlap, if_neg hnotne]
              exact ⟨rfl, le_trans hsp hple, fun c2 hc2 => (Option.some.inj hc2).symm⟩
            · intro r hr
              simp only [extractStep, hd, hlt, hcurcase, if_pos hlap, if_neg hnotne] at hr
              rcases List.mem_append.mp hr with hmem | hmem
              · exact hrec r hmem
              · simp only [List.mem_singleton] at hmem
                subst hmem
                show (0 : Int) ≤ c - s.tyre_stint_start_lap
                omega
          · refine ih _ (some (lapOf d, tyreOf d)) ?_ hrest ?_
            · simp only [extractStep, hd, hlt, hcurcase, if_neg hlap]
              refine ⟨rfl, ?_, fun c2 hc2 => ?_⟩
              · by_cases hne : tyreOf d ≠ pt
                · rw [if_pos hne]
                · rw [if_neg hne]
                  exact le_trans hsp hple
              · have hcc : (some c : Option Int) = some c2 := hc2
                have : c2 = c := (Option.some.inj hcc).symm
                omega
            · intro r hr
              simp only [extractStep, hd, hlt, hcurcase, if_neg hlap] at hr
              exact hrec r hr

/-- C3 as amended: whenever the frame sequence is well formed for the driver
(`goodSeqB`: reported laps are at least 1 and non-decreasing, and a compound
change is never first reported together with a lap increment), every record of
`extract_lap_times` has a non-negative `tyre_age`; and on the synthetic
one-pit-stop sequence the record of the pit lap has `tyre_age = 0`. -/
theorem c3_tyre_age_nonneg :
    (∀ (frames : List Frame) (code : String) (up_to_frame : Int),
      goodSeqB code none (frames.take up_to_frame.toNat) = true →
      ∀ r ∈ extract_lap_times frames code up_to_frame, 0 ≤ r.tyre_age) ∧
    extract_lap_times pitStopFrames "VER" 6 = pitStopRecords := by
  constructor
  · intro frames code up_to_frame hgood r hr
    rw [extract_lap_times] at hr
    split at hr
    · exact absurd hr (List.not_mem_nil r)
    · exact extract_fold_ages_nonneg code _ initExtractState none ⟨rfl, rfl, rfl⟩ hgood
        (fun r hr => absurd hr (List.not_mem_nil r)) r hr
  · with_unfolding_all rfl

/-- Witness for C3: the synthetic one-pit-stop sequence satisfies the
well-formedness hypothesis, and every extracted record has a non-negative
tyre age. -/
theorem c3_tyre_age_nonneg_witness :
    goodSeqB "VER" none (pitStopFrames.take (6 : Int).toNat) = true ∧
    ∀ r ∈ extract_lap_times pitStopFrames "VER" 6, 0 ≤ r.tyre_age :=
  ⟨by with_unfolding_all rfl,
   c3_tyre_age_nonneg.1 pitStopFrames "VER" 6 (by with_unfolding_all rfl)⟩

lemma calc_driver_win_lb (frames : List Frame) (idx : Int) (code : String) (laps : Int)
    (p : DriverPrediction)
    (h : calculate_driver_prediction frames idx code laps = .ok (some p)) :
    1/1000 ≤ p.win_probability := by
  unfold calculate_driver_prediction at h
  cases hg : pyGet frames idx with
  | error e =>
    simp only [hg] at h
    exact Except.noConfusion h
  | ok frame =>
    simp only [hg] at h
    cases hl : List.lookup code frame.drivers with
    | none =>
      simp only [hl] at h
      exact Option.noConfusion (Except.ok.inj h)
    | some dd =>
      simp only [hl, Except.ok.injEq, Option.some.injEq] at h
      subst h
      exact le_max_left _ _

lemma firstPass_win_lb (frames : List Frame) (idx laps : Int) :
    ∀ (ds : List (String × DriverData)) (out : List (String × DriverPrediction)),
      firstPass frames idx laps ds = .ok out →
      ∀ kv ∈ out, (1/1000 : Rat) ≤ kv.2.win_probability := by
  intro ds
  induction ds with
  | nil =>
    intro out h kv hkv
    simp only [firstPass, Except.ok.injEq] at h
    subst h
    exact absurd hkv (List.not_mem_nil kv)
  | cons hd0 tl ih =>
    obtain ⟨code, dd⟩ := hd0
    intro out h kv hkv
    cases hc : calculate_driver_prediction frames idx code laps with
    | error e =>
      simp only [firstPass, hc] at h
      exact Except.noConfusion h
    | ok po =>
      cases po with
      | none =>
        simp only [firstPass, hc] at h
        exact ih out h kv hkv
      | some p =>
        simp only [firstPass, hc] at h
        cases hf : firstPass frames idx laps tl with
        | error e =>
          simp only [hf] at h
          exact Except.noConfusion h
        | ok tail =>
          simp only [hf, Except.ok.injEq] at h
          subst h
          rcases List.mem_cons.mp hkv with rfl | hmem
          · exact calc_driver_win_lb frames idx code laps p hc
          · exact ih tail hf kv hmem

lemma sum_map_win_div (l : List (String × DriverPrediction)) (c : Rat) :
    (l.map (fun kv => kv.2.win_probability / c)).sum =
      (l.map (fun kv => kv.2.win_probability)).sum / c := by
  induction l with
  | nil => simp
  | cons a t ih => simp [List.sum_cons, ih, add_div]

lemma normalize_win_sum (raw : List (String × DriverPrediction)) (hne : raw ≠ [])
    (hlb : ∀ kv ∈ raw, (1/1000 : Rat) ≤ kv.2.win_probability) :
    ((normalizePredictions raw).map (fun kv => kv.2.win_probability)).sum = 1 := by
  have hpos : 0 < (raw.map (fun kv => kv.2.win_probability)).sum := by
    apply List.sum_pos
    · intro x hx
      obtain ⟨kv, hkv, rfl⟩ := List.mem_map.mp hx
      exact lt_of_lt_of_le (by norm_num) (hlb kv hkv)
    · simpa using hne
  simp only [normalizePredictions]
  rw [if_pos hpos, List.map_map]
  show (raw.map (fun kv =>
    kv.2.win_probability / (raw.map (fun kv => kv.2.win_probability)).sum)).sum = 1
  rw [sum_map_win_div]
  exact div_self (ne_of_gt hpos)

lemma normalize_podium (raw : List (String × DriverPrediction)) :
    (normalizePredictions raw).map (fun kv => (kv.1, kv.2.podium_probability)) =
      raw.map (fun kv => (kv.1, kv.2.podium_probability)) := by
  simp only [normalizePredictions]
  split_ifs with h
  · rw [List.map_map]
    rfl
  · rfl

lemma normalize_nil : normalizePredictions [] = [] := by
  simp [normalizePredictions]

/-- C1: whenever `calculate_all` returns a non-empty mapping (and some raw
win probability is positive, which the clamp in fact guarantees), the
normalized win probabilities sum to exactly 1, and every podium probability is
returned exactly as computed in the first pass, not renormalized. -/
theorem c1_win_normalization (frames : List Frame)
    (current_frame_idx laps_remaining : Int)
    (preds raw : List (String × DriverPrediction))
    (hok : calculate_all frames current_frame_idx laps_remaining = Except.ok preds)
    (hne : preds ≠ [])
    (hraw : rawPredictionsOf frames current_frame_idx laps_remaining = Except.ok raw)
    (_hnz : ∃ kv ∈ raw, 0 < kv.2.win_probability) :
    (preds.map (fun kv => kv.2.win_probability)).sum = 1 ∧
    preds.map (fun kv => (kv.1, kv.2.podium_probability)) =
      raw.map (fun kv => (kv.1, kv.2.podium_probability)) := by
  unfold calculate_all at hok
  by_cases hg : frames = [] ∨ current_frame_idx < 0
  · rw [if_pos hg] at hok
    simp only [Except.ok.injEq] at hok
    exact absurd hok.symm hne
  · rw [if_neg hg] at hok
    by_cases hd : (currentFrameOf frames current_frame_idx).drivers = []
    · rw [if_pos hd] at hok
      simp only [Except.ok.injEq] at hok
      exact absurd hok.symm hne
    · rw [if_neg hd, hraw] at hok
      simp only [Except.ok.injEq] at hok
      subst hok
      have hrawne : raw ≠ [] := by
        intro hcon
        subst hcon
        exact hne normalize_nil
      have hlb : ∀ kv ∈ raw, (1/1000 : Rat) ≤ kv.2.win_probability :=
        firstPass_win_lb frames current_frame_idx laps_remaining _ raw hraw
      exact ⟨normalize_win_sum raw hrawne hlb, normalize_podium raw⟩

/-- Witness for C1: one frame with two drivers; the normalized win
probabilities are 32/47 and 15/47 and sum to 1, while the podium
probabilities 19/20 and 17/20 are exactly the raw ones. -/
theorem c1_win_normalization_witness :
    (c1WitnessPreds.map (fun kv => kv.2.win_probability)).sum = 1 ∧
    c1WitnessPreds.map (fun kv => (kv.1, kv.2.podium_probability)) =
      c1WitnessRaw.map (fun kv => (kv.1, kv.2.podium_probability)) :=
  c1_win_normalization c1WitnessFrames 0 20 c1WitnessPreds c1WitnessRaw
    (by with_unfolding_all rfl) (by simp [c1WitnessPreds])
    (by with_unfolding_all rfl)
    ⟨("VER", ⟨"VER", 2/5, 19/20, 1, none, none, false, 0, none, 3/5⟩),
      by simp [c1WitnessRaw], by norm_num⟩
